import Mathlib

/-!
Verification development for the artifact-indexed test-run engine
(`src/tools.ts`, `src/agent.ts`). The definitions below are a shallow
embedding of the TypeScript source: pure computations become Lean
functions, the mutable run state (`actions`, `status`) becomes explicit
state passing, JavaScript string operations are modelled by executable
char-list functions, and code that can throw returns `Except`/`Option`.
-/

/-! ## Models of the JavaScript string primitives used by the source -/

/-- Model of `String.prototype.toLowerCase` (per character). -/
def jsToLower (s : String) : String := String.mk (s.data.map Char.toLower)

/-- Auxiliary splitter: accumulates the current field in reverse. -/
def splitChAux (sep : Char) : List Char → List Char → List String
  | [], acc => [String.mk acc.reverse]
  | c :: t, acc =>
    if c = sep then String.mk acc.reverse :: splitChAux sep t []
    else splitChAux sep t (c :: acc)

/-- Model of `String.prototype.split(sep)` for a one-character separator:
`"a\nb\n".split("\n")` is `["a", "b", ""]`. -/
def jsSplitCh (sep : Char) (s : String) : List String := splitChAux sep s.data []

/-- Model of `content.split("\n")` as used on the log files. -/
def jsSplitNl (s : String) : List String := jsSplitCh (Char.ofNat 10) s

/-- Model of `Array.prototype.join("\n")`. -/
def jsJoinNl : List String → String
  | [] => ""
  | [x] => x
  | x :: y :: t => x ++ "\n" ++ jsJoinNl (y :: t)

/-- Substring occurrence on char lists: true iff `needle` occurs
contiguously in `hay`. Models `String.prototype.includes`. -/
def charsContain : List Char → List Char → Bool
  | [], needle => needle.isEmpty
  | c :: t, needle => List.isPrefixOf needle (c :: t) || charsContain t needle

/-- Model of `hay.includes(needle)` on strings. -/
def jsIncludes (hay needle : String) : Bool := charsContain hay.data needle.data

/-- Model of `String.prototype.endsWith`. -/
def jsEndsWith (s suffixStr : String) : Bool := List.isSuffixOf suffixStr.data s.data

/-- Code-unit comparison of char lists, the default comparison used by
`Array.prototype.sort()` on strings. -/
def charListLe : List Char → List Char → Bool
  | [], _ => true
  | _ :: _, [] => false
  | a :: as, b :: bs =>
    if a.toNat < b.toNat then true
    else if b.toNat < a.toNat then false
    else charListLe as bs

/-- The default string order of `Array.prototype.sort()` as a Bool. -/
def strLeB (a b : String) : Bool := charListLe a.data b.data

/-- The default string order of `Array.prototype.sort()` as a Prop. -/
def strLe (a b : String) : Prop := strLeB a b = true

instance : DecidableRel strLe := fun a b => by
  unfold strLe
  infer_instance

/-- Model of `Array.prototype.slice(begin)` with a single, possibly
negative, begin index. -/
def jsSliceFrom {α : Type} (l : List α) (start : Int) : List α :=
  let len : Int := (l.length : Int)
  let b : Int := if start < 0 then max (len + start) 0 else min start len
  l.drop b.toNat

/-- Model of `path.basename`: the last `/`-separated component. -/
def jsBasename (p : String) : String := (jsSplitCh (Char.ofNat 47) p).getLastD ""

/-! ## Data model of `src/tools.ts` -/

/-- The `RunResult.status` field: `'PASS' | 'FAIL'`. -/
inductive Status where
  | PASS : Status
  | FAIL : Status
deriving DecidableEq

/-- The `ActionEv` union type of `tools.ts`: one recorded action event. -/
inductive ActionEv where
  | screenshot (name : String) (time : Nat) : ActionEv
  | stepStart (name : String) (time : Nat) : ActionEv
  | stepEnd (name : String) (time : Nat) : ActionEv
  | stepError (name : String) (error : String) (time : Nat) : ActionEv
deriving DecidableEq

/-- The mutable state shared by the helpers inside `runTest`: the
in-memory `actions` array, the `status` variable, and a clock standing
in for `Date.now()` (ticks by one at each read, so recorded times are
strictly increasing). -/
structure StepState where
  actions : List ActionEv
  status : Status
  clock : Nat
deriving DecidableEq

/-- The state at the start of a run: `actions = []`, `status = 'PASS'`. -/
def initStepState : StepState := { actions := [], status := Status.PASS, clock := 0 }

/-- Push one action event (`actions.push({... time: Date.now()})`). -/
def pushAction (a : ActionEv) (s : StepState) : StepState :=
  { s with actions := s.actions ++ [a], clock := s.clock + 1 }

/-- Model of `helpers.screenshot(name)`: records a `screenshot` action
event, then captures the image (an external effect with no bearing on
the recorded state). -/
def doScreenshot (name : String) (s : StepState) : StepState :=
  pushAction (ActionEv.screenshot name s.clock) s

/-- The part of `helpers.step` that runs before the body: push
`step:start`, then take the `before_<name>` screenshot. -/
def stepPre (name : String) (s : StepState) : StepState :=
  doScreenshot ("before_" ++ name) (pushAction (ActionEv.stepStart name s.clock) s)

/-- Model of `helpers.step(name, fn)`. The body is an arbitrary state
transformer returning the new state and `some e` when it throws `e`.
Mirrors the source exactly: push `step:start`; capture `before_<name>`;
run the body; on success push `step:end`; on failure push `step:error`,
capture `on_error_<name>`, set `status = 'FAIL'` and rethrow; in both
cases the `finally` block captures `after_<name>`. -/
def stepRun (name : String) (body : StepState → StepState × Option String)
    (s : StepState) : StepState × Option String :=
  let s2 := stepPre name s
  match body s2 with
  | (s3, none) =>
    let s4 := pushAction (ActionEv.stepEnd name s3.clock) s3
    let s5 := doScreenshot ("after_" ++ name) s4
    (s5, none)
  | (s3, some e) =>
    let s4 := pushAction (ActionEv.stepError name e s3.clock) s3
    let s5 := doScreenshot ("on_error_" ++ name) s4
    let s6 := { s5 with status := Status.FAIL }
    let s7 := doScreenshot ("after_" ++ name) s6
    (s7, some e)

/-- The events `helpers.step` appends after the body, by outcome. -/
def stepSuffix (name : String) (t : Nat) : Option String → List ActionEv
  | none => [ActionEv.stepEnd name t, ActionEv.screenshot ("after_" ++ name) (t + 1)]
  | some e =>
    [ActionEv.stepError name e t, ActionEv.screenshot ("on_error_" ++ name) (t + 1),
     ActionEv.screenshot ("after_" ++ name) (t + 2)]

theorem pushAction_status (a : ActionEv) (s : StepState) :
    (pushAction a s).status = s.status := rfl

theorem doScreenshot_status (n : String) (s : StepState) :
    (doScreenshot n s).status = s.status := rfl

theorem stepPre_actions (name : String) (s : StepState) :
    (stepPre name s).actions =
      s.actions ++ [ActionEv.stepStart name s.clock,
        ActionEv.screenshot ("before_" ++ name) (s.clock + 1)] := by
  simp [stepPre, doScreenshot, pushAction]

/-- Shared decomposition of one `helpers.step` invocation: assuming the
body extends the recorded action list by `tail`, the final action list
is the incoming list, then `step:start` and the `before` screenshot,
then `tail`, then the outcome-dependent events of `stepSuffix`. -/
theorem stepRun_actions_spec (name : String)
    (body : StepState → StepState × Option String)
    (s0 s3 : StepState) (tail : List ActionEv) (out : Option String)
    (hbody : body (stepPre name s0) = (s3, out))
    (htail : s3.actions = (stepPre name s0).actions ++ tail) :
    (stepRun name body s0).1.actions =
      s0.actions ++ [ActionEv.stepStart name s0.clock,
        ActionEv.screenshot ("before_" ++ name) (s0.clock + 1)] ++ tail ++
        stepSuffix name s3.clock out
    ∧ (stepRun name body s0).2 = out := by
  cases out with
  | none =>
    constructor
    · simp only [stepRun, hbody]
      simp [doScreenshot, pushAction, stepSuffix, htail, stepPre_actions]
    · simp only [stepRun, hbody]
  | some e =>
    constructor
    · simp only [stepRun, hbody]
      simp [doScreenshot, pushAction, stepSuffix, htail, stepPre_actions]
    · simp only [stepRun, hbody]

/-! ## Deep embedding of user scripts

A user script is a sequence of calls to the helpers (`screenshot`,
`step`), possibly throwing, possibly catching errors itself. This is
the cooperative, single-threaded execution model of the source: the
script only interacts with the recorded run state through the helpers.
-/

/-- A user script: `done` finishes normally, `fail` throws, `shot` is a
bare `helpers.screenshot` call, `step` is a `helpers.step` call with a
body and a continuation, `tryCatch` is user-level `try`/`catch`. -/
inductive Script where
  | done : Script
  | fail (msg : String) : Script
  | shot (name : String) (k : Script) : Script
  | step (name : String) (body : Script) (k : Script) : Script
  | tryCatch (t : Script) (c : Script) (k : Script) : Script

/-- Execution of a user script over the run state, returning the final
state and `some e` when the script terminates by throwing `e`. The
`step` case inlines exactly the body of `helpers.step` (see `stepRun`);
a step failure rethrows, so the continuation is skipped. -/
def execScript : Script → StepState → StepState × Option String
  | Script.done, s => (s, none)
  | Script.fail m, s => (s, some m)
  | Script.shot n k, s => execScript k (doScreenshot n s)
  | Script.tryCatch t c k, s =>
    match execScript t s with
    | (s1, none) => execScript k s1
    | (s1, some _) =>
      match execScript c s1 with
      | (s2, none) => execScript k s2
      | (s2, some e2) => (s2, some e2)
  | Script.step n b k, s =>
    let s2 := stepPre n s
    match execScript b s2 with
    | (s3, none) =>
      let s4 := pushAction (ActionEv.stepEnd n s3.clock) s3
      let s5 := doScreenshot ("after_" ++ n) s4
      execScript k s5
    | (s3, some e) =>
      let s4 := pushAction (ActionEv.stepError n e s3.clock) s3
      let s5 := doScreenshot ("on_error_" ++ n) s4
      let s6 := { s5 with status := Status.FAIL }
      let s7 := doScreenshot ("after_" ++ n) s6
      (s7, some e)

/-- The `step` case of `execScript` is the generic `stepRun` applied to
the execution of the body, followed by the continuation on success. -/
theorem execScript_step_eq (n : String) (b k : Script) (s : StepState) :
    execScript (Script.step n b k) s =
      match stepRun n (fun st => execScript b st) s with
      | (s5, none) => execScript k s5
      | (s7, some e) => (s7, some e) := by
  simp only [execScript, stepRun]
  cases execScript b (stepPre n s) with
  | mk s3 out => cases out <;> rfl

/-- Whether running the script from `s` makes some `helpers.step` body
raise (the only place the source ever writes `status = 'FAIL'` inside
the script phase). Mirrors the control flow of `execScript`. -/
def stepRaised : Script → StepState → Bool
  | Script.done, _ => false
  | Script.fail _, _ => false
  | Script.shot n k, s => stepRaised k (doScreenshot n s)
  | Script.tryCatch t c k, s =>
    match execScript t s with
    | (s1, none) => stepRaised t s || stepRaised k s1
    | (s1, some _) =>
      match execScript c s1 with
      | (s2, none) => stepRaised t s || stepRaised c s1 || stepRaised k s2
      | (_, some _) => stepRaised t s || stepRaised c s1
  | Script.step n b k, s =>
    let s2 := stepPre n s
    match execScript b s2 with
    | (s3, none) =>
      let s4 := pushAction (ActionEv.stepEnd n s3.clock) s3
      let s5 := doScreenshot ("after_" ++ n) s4
      stepRaised b s2 || stepRaised k s5
    | (_, some _) => true

/-- The recorded status after running a script is `FAIL` exactly when it
was already `FAIL` or some step body raised along the executed path. -/
theorem execScript_status_fail_iff (sc : Script) (s : StepState) :
    ((execScript sc s).1.status = Status.FAIL) ↔
      (s.status = Status.FAIL ∨ stepRaised sc s = true) := by
  induction sc generalizing s with
  | done => simp [execScript, stepRaised]
  | fail m => simp [execScript, stepRaised]
  | shot n k ih =>
    simp only [execScript, stepRaised]
    rw [ih]
    simp [doScreenshot, pushAction]
  | tryCatch t c k iht ihc ihk =>
    simp only [execScript, stepRaised]
    cases ht : execScript t s with
    | mk s1 out1 =>
      have h1 : s1.status = (execScript t s).1.status := by rw [ht]
      cases out1 with
      | none =>
        simp only [ht]
        rw [ihk]
        rw [h1, iht]
        simp only [Bool.or_eq_true]
        tauto
      | some e1 =>
        simp only [ht]
        cases hc : execScript c s1 with
        | mk s2 out2 =>
          have h2 : s2.status = (execScript c s1).1.status := by rw [hc]
          cases out2 with
          | none =>
            simp only [hc]
            rw [ihk]
            rw [h2, ihc]
            rw [h1, iht]
            simp only [Bool.or_eq_true]
            tauto
          | some e2 =>
            simp only [hc]
            rw [h2, ihc]
            rw [h1, iht]
            simp only [Bool.or_eq_true]
            tauto
  | step n b k ihb ihk =>
    simp only [execScript, stepRaised]
    cases hb : execScript b (stepPre n s) with
    | mk s3 out =>
      have h3 : s3.status = (execScript b (stepPre n s)).1.status := by rw [hb]
      cases out with
      | none =>
        simp only [hb]
        rw [ihk]
        simp only [doScreenshot_status, pushAction_status]
        rw [h3, ihb]
        have hp : (stepPre n s).status = s.status := by
          simp [stepPre, doScreenshot, pushAction]
        rw [hp]
        simp only [Bool.or_eq_true]
        tauto
      | some e =>
        simp only [hb]
        simp [doScreenshot, pushAction]

/-! ## Instrumentation layer (the listeners attached in `runTest`) -/

/-- Events a page can emit during a run. The source attaches handlers
with `page.on("console", ...)` and `page.on("requestfinished", ...)`;
`pageError` models the `pageerror` event a page emits for an uncaught
in-page script error. Each event carries the ISO timestamp observed
when the handler would run. -/
inductive PageEvent where
  | console (time level text : String) : PageEvent
  | requestFinished (time method url : String) (status : Option Nat) : PageEvent
  | pageError (time message : String) : PageEvent

/-- One record of the network log (`{time, method, url, status}`). -/
structure NetworkRec where
  time : String
  method : String
  url : String
  status : Option Nat
deriving DecidableEq

/-- The state owned by the instrumentation: the console log file text,
the network log records, and the in-memory `criticalErrors` list. -/
structure InstrState where
  consoleText : String
  networkRecs : List NetworkRec
  criticalErrors : List String
deriving DecidableEq

/-- Empty instrumentation state at listener-attach time. -/
def instrInit : InstrState := { consoleText := "", networkRecs := [], criticalErrors := [] }

/-- One console log line: `[<ISO timestamp>] [<level>] <text>` plus newline. -/
def consoleLine (time level text : String) : String :=
  "[" ++ time ++ "] [" ++ level ++ "] " ++ text ++ "\n"

/-- Dispatch of one page event through the listeners `runTest` attaches.
The `console` handler appends a formatted line and, for level `error`,
pushes the raw text onto `criticalErrors`; the `requestfinished` handler
appends one network record; for `pageError` the state is unchanged
because the source registers no `pageerror` listener. -/
def handlePageEvent (s : InstrState) (e : PageEvent) : InstrState :=
  match e with
  | PageEvent.console time level text =>
    let s1 := { s with consoleText := s.consoleText ++ consoleLine time level text }
    if level = "error" then { s1 with criticalErrors := s1.criticalErrors ++ [text] }
    else s1
  | PageEvent.requestFinished time method url status =>
    { s with networkRecs := s.networkRecs ++ [{ time := time, method := method, url := url, status := status }] }
  | PageEvent.pageError _ _ => s

/-- Fold a whole run of page events through the listeners. -/
def runInstr (events : List PageEvent) : InstrState :=
  events.foldl handlePageEvent instrInit

/-! ## The run engine `runTest` -/

/-- The environment of one finalization: which teardown calls fail.
`tracing.stop` is awaited bare in the source; the three `close` calls
carry `.catch(() => {})`; the actions write sits in `try`/`catch`. -/
structure FinalEnv where
  tracingStopErr : Option String
  pageCloseErr : Option String
  contextCloseErr : Option String
  browserCloseErr : Option String
  writeActionsErr : Option String
deriving DecidableEq

/-- Observable outcome of the `finally` block of `runTest`: which
teardown steps were attempted, whether `actions.json` was written, and
whether the block itself threw. -/
structure FinalOutcome where
  traceStopAttempted : Bool
  pageCloseAttempted : Bool
  contextCloseAttempted : Bool
  browserCloseAttempted : Bool
  actionsWriteAttempted : Bool
  actionsPersisted : Bool
  thrown : Option String
deriving DecidableEq

/-- Model of the `finally` block of `runTest`. If the context exists the
trace is stopped first, with no error protection: a throw there aborts
the rest of the block and propagates. The three `close` calls swallow
their own errors, and the `writeFileSync` of `actions.json` is wrapped
in `try`/`catch`. -/
def finalize (fe : FinalEnv) (hasContext hasPage hasBrowser : Bool) : FinalOutcome :=
  if hasContext && fe.tracingStopErr.isSome then
    { traceStopAttempted := true, pageCloseAttempted := false,
      contextCloseAttempted := false, browserCloseAttempted := false,
      actionsWriteAttempted := false, actionsPersisted := false,
      thrown := fe.tracingStopErr }
  else
    { traceStopAttempted := hasContext, pageCloseAttempted := hasPage,
      contextCloseAttempted := hasContext, browserCloseAttempted := hasBrowser,
      actionsWriteAttempted := true, actionsPersisted := fe.writeActionsErr.isNone,
      thrown := none }

/-- The environment of one `runTest` call: whether the script path
exists, which phase inside the `try` block throws (`none` = succeeds),
whether the loaded module exports a callable, the page events that fire
while the listeners are attached, and the finalization environment. -/
structure EngineEnv where
  scriptPath : String
  runId : String
  scriptExists : Bool
  launchErr : Option String
  contextErr : Option String
  pageErr : Option String
  instrErr : Option String
  tracingStartErr : Option String
  importErr : Option String
  shapeOk : Bool
  gotoErr : Option String
  pageEvents : List PageEvent
  fin : FinalEnv

/-- Outcome of the `try` block: the run state when control reaches the
`finally` block, and which resources are non-null there. -/
structure TryOutcome where
  st : StepState
  hasBrowser : Bool
  hasContext : Bool
  hasPage : Bool

/-- The `try` block of `runTest`: launch browser, open context and page,
attach listeners, start tracing, import the script, check its shape,
navigate to `about:blank`, execute the script. The `catch` sets
`status = 'FAIL'` for any throw; resources allocated so far stay live. -/
def engineTry (env : EngineEnv) (sc : Script) : TryOutcome :=
  match env.launchErr with
  | some _ => { st := { initStepState with status := Status.FAIL },
                hasBrowser := false, hasContext := false, hasPage := false }
  | none =>
    match env.contextErr with
    | some _ => { st := { initStepState with status := Status.FAIL },
                  hasBrowser := true, hasContext := false, hasPage := false }
    | none =>
      match env.pageErr with
      | some _ => { st := { initStepState with status := Status.FAIL },
                    hasBrowser := true, hasContext := true, hasPage := false }
      | none =>
        match env.instrErr with
        | some _ => { st := { initStepState with status := Status.FAIL },
                      hasBrowser := true, hasContext := true, hasPage := true }
        | none =>
          match env.tracingStartErr with
          | some _ => { st := { initStepState with status := Status.FAIL },
                        hasBrowser := true, hasContext := true, hasPage := true }
          | none =>
            match env.importErr with
            | some _ => { st := { initStepState with status := Status.FAIL },
                          hasBrowser := true, hasContext := true, hasPage := true }
            | none =>
              if env.shapeOk = false then
                { st := { initStepState with status := Status.FAIL },
                  hasBrowser := true, hasContext := true, hasPage := true }
              else
                match env.gotoErr with
                | some _ => { st := { initStepState with status := Status.FAIL },
                              hasBrowser := true, hasContext := true, hasPage := true }
                | none =>
                  match execScript sc initStepState with
                  | (s1, none) => { st := s1, hasBrowser := true, hasContext := true, hasPage := true }
                  | (s1, some _) => { st := { s1 with status := Status.FAIL },
                                      hasBrowser := true, hasContext := true, hasPage := true }

/-- The value `runTest` resolves with (`RunResult` in the source). -/
structure RunResultM where
  status : Status
  artifactsDir : String
  runId : String
  criticalErrors : List String
deriving DecidableEq

/-- Full observable outcome of one `runTest` call: the returned value or
propagated exception, whether the run directory was created, the
finalization outcome (`none` when the `finally` block never ran), and
the in-memory action list at the end. -/
structure EngineResult where
  ret : Except String RunResultM
  dirCreated : Bool
  finalized : Option FinalOutcome
  actionsLog : List ActionEv

/-- Model of `runTest(scriptPath)`. A missing script throws before any
resource is allocated. Otherwise the run directory is created eagerly,
the `try` block runs, and the `finally` block always runs; an error
thrown by `tracing.stop` inside `finally` propagates out of `runTest`. -/
def runTest (env : EngineEnv) (sc : Script) : EngineResult :=
  if env.scriptExists = false then
    { ret := Except.error ("Script file not found: " ++ env.scriptPath),
      dirCreated := false, finalized := none, actionsLog := [] }
  else
    let t := engineTry env sc
    let fo := finalize env.fin t.hasContext t.hasPage t.hasBrowser
    let crit := if t.hasPage then (runInstr env.pageEvents).criticalErrors else []
    { ret :=
        match fo.thrown with
        | some e => Except.error e
        | none => Except.ok
            { status := t.st.status, artifactsDir := "runs/" ++ env.runId,
              runId := env.runId, criticalErrors := crit }
      dirCreated := true
      finalized := some fo
      actionsLog := t.st.actions }

/-- The engine catches an exception in some phase of the `try` block:
browser startup (launch, context, page), instrumentation, tracing
start, script load (import or shape), or script execution (navigation
or a throw escaping the script). -/
def engineCaughtB (env : EngineEnv) (sc : Script) : Bool :=
  env.launchErr.isSome || env.contextErr.isSome || env.pageErr.isSome ||
    env.instrErr.isSome || env.tracingStartErr.isSome || env.importErr.isSome ||
    !env.shapeOk || env.gotoErr.isSome || (execScript sc initStepState).2.isSome

/-- The status reaching the `finally` block is `FAIL` exactly when a
phase of the `try` block threw or some step body raised. -/
theorem engineTry_status_fail_iff (env : EngineEnv) (sc : Script) :
    ((engineTry env sc).st.status = Status.FAIL) ↔
      (stepRaised sc initStepState = true ∨ engineCaughtB env sc = true) := by
  unfold engineTry engineCaughtB
  cases hl : env.launchErr with
  | some e => simp
  | none =>
  cases hc : env.contextErr with
  | some e => simp
  | none =>
  cases hp : env.pageErr with
  | some e => simp
  | none =>
  cases hi : env.instrErr with
  | some e => simp
  | none =>
  cases htr : env.tracingStartErr with
  | some e => simp
  | none =>
  cases him : env.importErr with
  | some e => simp
  | none =>
  cases hsh : env.shapeOk with
  | false => simp
  | true =>
  simp only [Bool.false_eq_true, if_false, if_true]
  cases hg : env.gotoErr with
  | some e => simp
  | none =>
  cases hx : execScript sc initStepState with
  | mk s1 out =>
    have h1 : s1.status = (execScript sc initStepState).1.status := by rw [hx]
    cases out with
    | none =>
      simp only [hx]
      simp only [show ((true : Bool) = false) = False by simp, if_false]
      rw [h1, execScript_status_fail_iff]
      simp [initStepState]
    | some e =>
      simp [hx]

/-! ## Data model of `src/agent.ts` -/

/-- Contents of one run directory: the file names present, the text of
the two line-based logs, and the parsed records of `actions.json`
(each represented by its JSON string rendering, the form the `grep`
filter of the source inspects). -/
structure RunDir where
  files : List String
  consoleText : String
  networkText : String
  actionItems : List String
deriving DecidableEq

/-- The runs root on disk: an association of run identifiers to run
directories. -/
abbrev RunsFS := List (String × RunDir)

/-- Lookup of `runs/<runId>` in the filesystem. -/
def findRun : RunsFS → String → Option RunDir
  | [], _ => none
  | (i, d) :: t, r => if i = r then some d else findRun t r

/-- The directory path `path.resolve("runs", runId)` (kept relative in
the model). -/
def runDirPath (runId : String) : String := "runs/" ++ runId

/-- Model of `ensureRunDir`: throws `Run not found: <runId>` when no
directory exists for the run identifier. -/
def ensureRunDir (fsys : RunsFS) (runId : String) : Except String RunDir :=
  match findRun fsys runId with
  | none => Except.error ("Run not found: " ++ runId)
  | some d => Except.ok d

/-- The `ArtifactIndex` record of `agent.ts` (`logs` flattened into its
three fields). -/
structure ArtifactIndex where
  runId : String
  artifactsDir : String
  screenshots : List String
  console : Option String
  network : Option String
  actions : Option String
  trace : Option String
deriving DecidableEq

/-- Model of `buildArtifactIndex(artifactsDir)` where `files` is the
directory listing `fs.readdirSync` returns: the `.png` names sorted by
the default string order of `Array.prototype.sort()`, presence flags
for the three logs and the trace, and the basename as `runId`. -/
def buildArtifactIndex (artifactsDir : String) (files : List String) : ArtifactIndex :=
  let screenshots := List.insertionSort strLe (files.filter (fun f => jsEndsWith f ".png"))
  { runId := jsBasename artifactsDir
    artifactsDir := artifactsDir
    screenshots := screenshots
    console := if files.contains "console.log" then some "console.log" else none
    network := if files.contains "network.log" then some "network.log" else none
    actions := if files.contains "actions.json" then some "actions.json" else none
    trace := if files.contains "trace.zip" then some "trace.zip" else none }

/-- A JavaScript number as far as the `limit` handling is concerned:
a finite integer, `NaN`, or an infinity. -/
inductive JSNum where
  | num (n : Int) : JSNum
  | nan : JSNum
  | inf : JSNum
deriving DecidableEq

/-- Model of the line
`const limit = args.limit && Number.isFinite(args.limit) ? Number(args.limit) : undefined`:
`undefined`, `0` and `NaN` are falsy, infinities fail `isFinite`, so a
limit survives only as a nonzero finite number. -/
def normLimit : Option JSNum → Option Int
  | some (JSNum.num n) => if n = 0 then none else some n
  | _ => none

/-- Model of `const grep = args.grep?.toLowerCase()` followed by the
`if (grep)` guards: absent or empty filters are dropped, present ones
are lowercased. -/
def normGrep : Option String → Option String
  | none => none
  | some g => if g = "" then none else some (jsToLower g)

/-- One filter test: `x.toLowerCase().includes(g)` for an already
lowercased `g`. -/
def grepMatch (g : String) (x : String) : Bool := charsContain (jsToLower x).data g.data

/-- Apply the optional lowercased filter to a list of lines/records. -/
def applyGrep (g : Option String) (l : List String) : List String :=
  match g with
  | none => l
  | some gg => l.filter (grepMatch gg)

/-- Apply the optional effective limit: `items.slice(-limit)`. -/
def applyLimit {α : Type} (lim : Option Int) (l : List α) : List α :=
  match lim with
  | none => l
  | some n => jsSliceFrom l (-n)

/-- JavaScript falsiness of an optional string argument, as tested by
`if (!args.name)`: absent or empty. -/
def jsFalsyStr : Option String → Bool
  | none => true
  | some s => s == ""

/-- The value `handleGetArtifact` resolves with: either the rendering
of a structured error object, the JSON with the single key `error`, or one of the success
payload shapes. -/
inductive ArtifactResponse where
  | errorVal (msg : String) : ArtifactResponse
  | indexVal (idx : ArtifactIndex) : ArtifactResponse
  | pathVal (p : String) : ArtifactResponse
  | itemsVal (items : List String) : ArtifactResponse
  | textVal (s : String) : ArtifactResponse
deriving DecidableEq

/-- Model of `handleGetArtifact(args)` in `agent.ts`. `Except.error`
models an exception raised out of the function (only `ensureRunDir`
throws here); `Except.ok` models a returned value, which may itself be
the structured error object. The dispatch, existence checks, filter and
limit handling mirror the source switch case by case. -/
def handleGetArtifactImpl (fsys : RunsFS) (runId kind : String)
    (name grep : Option String) (limit : Option JSNum) : Except String ArtifactResponse :=
  match ensureRunDir fsys runId with
  | Except.error e => Except.error e
  | Except.ok d =>
    if kind = "index" then
      Except.ok (ArtifactResponse.indexVal (buildArtifactIndex (runDirPath runId) d.files))
    else if kind = "screenshot" then
      if jsFalsyStr name then Except.ok (ArtifactResponse.errorVal "name is required for screenshot")
      else if d.files.contains (name.getD "" ++ ".png") then
        Except.ok (ArtifactResponse.pathVal (runDirPath runId ++ "/" ++ name.getD "" ++ ".png"))
      else Except.ok (ArtifactResponse.errorVal "screenshot not found")
    else if kind = "console" ∨ kind = "network" ∨ kind = "actions" then
      let fileName :=
        if kind = "console" then "console.log"
        else if kind = "network" then "network.log"
        else "actions.json"
      if d.files.contains fileName = false then
        Except.ok (ArtifactResponse.errorVal "log not found")
      else
        let g := normGrep grep
        let lim := normLimit limit
        if kind = "actions" then
          Except.ok (ArtifactResponse.itemsVal (applyLimit lim (applyGrep g d.actionItems)))
        else
          let content := if kind = "console" then d.consoleText else d.networkText
          Except.ok (ArtifactResponse.textVal
            (jsJoinNl (applyLimit lim (applyGrep g (jsSplitNl content)))))
    else if kind = "trace" then
      if d.files.contains "trace.zip" then
        Except.ok (ArtifactResponse.pathVal (runDirPath runId ++ "/trace.zip"))
      else Except.ok (ArtifactResponse.errorVal "trace not found")
    else Except.ok (ArtifactResponse.errorVal "invalid kind")

/-- Model of the `limit` handling of the HTTP log endpoint in
`startAgentServer`: `if (limit && Number.isFinite(limit))` applies
`slice(-limit)`, so `0`, `NaN` and infinities leave the list whole. -/
def serverApplyLimit {α : Type} (limit : Option JSNum) (l : List α) : List α :=
  match limit with
  | some (JSNum.num n) => if n = 0 then l else jsSliceFrom l (-n)
  | _ => l

/-! ## Order lemmas for the sort comparison -/

theorem charListLe_total (a b : List Char) :
    charListLe a b = true ∨ charListLe b a = true := by
  induction a generalizing b with
  | nil => left; rfl
  | cons x xs ih =>
    cases b with
    | nil => right; rfl
    | cons y ys =>
      by_cases hxy : x.toNat < y.toNat
      · left; simp [charListLe, hxy]
      · by_cases hyx : y.toNat < x.toNat
        · right; simp [charListLe, hyx]
        · cases ih ys with
          | inl h => left; simp [charListLe, hxy, hyx, h]
          | inr h => right; simp [charListLe, hxy, hyx, h]

theorem charListLe_trans (a b c : List Char)
    (hab : charListLe a b = true) (hbc : charListLe b c = true) :
    charListLe a c = true := by
  induction a generalizing b c with
  | nil => rfl
  | cons x xs ih =>
    cases b with
    | nil => simp [charListLe] at hab
    | cons y ys =>
      cases c with
      | nil => simp [charListLe] at hbc
      | cons z zs =>
        simp only [charListLe] at hab hbc ⊢
        by_cases hxy : x.toNat < y.toNat
        · by_cases hyz : y.toNat < z.toNat
          · have : x.toNat < z.toNat := Nat.lt_trans hxy hyz
            simp [this]
          · by_cases hzy : z.toNat < y.toNat
            · simp [hyz, hzy] at hbc
            · have hyzn : y.toNat = z.toNat := Nat.le_antisymm (Nat.le_of_not_lt hzy) (Nat.le_of_not_lt hyz)
              have : x.toNat < z.toNat := hyzn ▸ hxy
              simp [this]
        · by_cases hyx : y.toNat < x.toNat
          · simp [hxy, hyx] at hab
          · have hxyn : x.toNat = y.toNat := Nat.le_antisymm (Nat.le_of_not_lt hyx) (Nat.le_of_not_lt hxy)
            simp only [hxy, hyx, if_false] at hab
            by_cases hyz : y.toNat < z.toNat
            · have : x.toNat < z.toNat := hxyn ▸ hyz
              simp [this]
            · by_cases hzy : z.toNat < y.toNat
              · simp [hyz, hzy] at hbc
              · simp only [hyz, hzy, if_false] at hbc
                have hxz : ¬ x.toNat < z.toNat := by
                  rw [hxyn]; exact hyz
                have hzx : ¬ z.toNat < x.toNat := by
                  rw [hxyn]; exact hzy
                simp [hxz, hzx, ih ys zs hab hbc]

theorem char_toNat_inj (a b : Char) (h : a.toNat = b.toNat) : a = b := by
  apply Char.ext
  exact UInt32.ext h

theorem charListLe_antisymm (a b : List Char)
    (hab : charListLe a b = true) (hba : charListLe b a = true) : a = b := by
  induction a generalizing b with
  | nil =>
    cases b with
    | nil => rfl
    | cons y ys => simp [charListLe] at hba
  | cons x xs ih =>
    cases b with
    | nil => simp [charListLe] at hab
    | cons y ys =>
      simp only [charListLe] at hab hba
      by_cases hxy : x.toNat < y.toNat
      · have : ¬ y.toNat < x.toNat := Nat.lt_asymm hxy
        simp [this, Nat.lt_irrefl, hxy] at hba
      · by_cases hyx : y.toNat < x.toNat
        · simp [hxy, hyx] at hab
        · have hxyn : x.toNat = y.toNat := Nat.le_antisymm (Nat.le_of_not_lt hyx) (Nat.le_of_not_lt hxy)
          simp only [hxy, hyx, if_false] at hab hba
          rw [char_toNat_inj x y hxyn, ih ys hab hba]

instance : IsTotal String strLe :=
  ⟨fun a b => charListLe_total a.data b.data⟩

instance : IsTrans String strLe :=
  ⟨fun a b c hab hbc => charListLe_trans a.data b.data c.data hab hbc⟩

theorem string_data_inj (a b : String) (h : a.data = b.data) : a = b := by
  cases a
  cases b
  exact congrArg String.mk h

instance : IsAntisymm String strLe :=
  ⟨fun a b hab hba => string_data_inj a b (charListLe_antisymm a.data b.data hab hba)⟩

/-! ## Claims about artifact retrieval -/

/-- An empty run directory, used for concrete instances. -/
def rdEmpty : RunDir := { files := [], consoleText := "", networkText := "", actionItems := [] }

/-- A run directory holding the console log of the spec example. -/
def rdConsoleEx : RunDir :=
  { files := ["console.log"], consoleText := "[INFO] ok\n[ERROR] boom\n",
    networkText := "", actionItems := [] }

/-- A run directory whose actions log holds three recorded events. -/
def rdActionsEx : RunDir :=
  { files := ["actions.json"], consoleText := "", networkText := "",
    actionItems := ["a-event-1", "a-event-2", "a-event-3"] }

/-- C5 counterexample: for an unknown runId, `handleGetArtifact` raises
the `Run not found` exception out of the function instead of returning
a structured error value. -/
theorem handleGetArtifact_unknown_run_raises :
    handleGetArtifactImpl [] "2025-12-31-23-59-59" "console" none (some "error") none =
      Except.error "Run not found: 2025-12-31-23-59-59" := rfl

/-- C5 (amended): whenever the run directory exists, every outcome of
`handleGetArtifact` — including all its failure cases (missing name,
missing file, unrecognized kind) — is a returned value, never a raised
exception; only the unknown-runId case raises. -/
theorem handleGetArtifact_structured_of_known_run (fsys : RunsFS) (runId kind : String)
    (name grep : Option String) (limit : Option JSNum) (d : RunDir)
    (h : findRun fsys runId = some d) :
    ∃ resp, handleGetArtifactImpl fsys runId kind name grep limit = Except.ok resp := by
  unfold handleGetArtifactImpl ensureRunDir
  rw [h]
  simp only []
  split_ifs <;> exact ⟨_, rfl⟩

/-- C5 witness: a concrete known run with an unrecognized kind still
resolves with a value. -/
theorem handleGetArtifact_structured_of_known_run_w :
    ∃ resp, handleGetArtifactImpl [("r9", rdEmpty)] "r9" "bogus" none none none =
      Except.ok resp :=
  handleGetArtifact_structured_of_known_run [("r9", rdEmpty)] "r9" "bogus" none none none rdEmpty rfl

/-- C6: when no directory exists for the runId, retrieval fails with the
`Run not found` error before any kind-specific logic, for every kind
including `index` and unrecognized kinds. -/
theorem handleGetArtifact_run_not_found_first (fsys : RunsFS) (runId kind : String)
    (name grep : Option String) (limit : Option JSNum)
    (h : findRun fsys runId = none) :
    handleGetArtifactImpl fsys runId kind name grep limit =
      Except.error ("Run not found: " ++ runId) := by
  unfold handleGetArtifactImpl ensureRunDir
  rw [h]

/-- C6 witness: concrete nonexistent run requested with `kind=index`. -/
theorem handleGetArtifact_run_not_found_first_w :
    handleGetArtifactImpl [] "2025-01-01-00-00-00" "index" none none none =
      Except.error ("Run not found: " ++ "2025-01-01-00-00-00") :=
  handleGetArtifact_run_not_found_first [] "2025-01-01-00-00-00" "index" none none none rfl

/-- C7: filtering is a case-insensitive substring match on each line (or
record rendering) and a limit keeps the most recent entries after the
filter: the spec console example returns exactly the `[ERROR] boom`
line, `limit=1` on three recorded events returns only the last, and in
general `slice(-n)` for positive `n` is the length-`n` tail. -/
theorem retrieval_filter_limit_semantics :
    handleGetArtifactImpl [("rc", rdConsoleEx)] "rc" "console" none (some "error") none =
      Except.ok (ArtifactResponse.textVal "[ERROR] boom")
    ∧ handleGetArtifactImpl [("ra", rdActionsEx)] "ra" "actions" none none (some (JSNum.num 1)) =
      Except.ok (ArtifactResponse.itemsVal ["a-event-3"])
    ∧ ∀ (l : List String) (n : Nat), 0 < n →
        jsSliceFrom l (-(n : Int)) = l.drop (l.length - n) := by
  refine ⟨rfl, rfl, ?_⟩
  intro l n h
  simp only [jsSliceFrom]
  rw [if_pos (show -(n : Int) < 0 by omega)]
  congr 1
  omega

/-- C7 witness: the tail semantics at a concrete list and limit. -/
theorem retrieval_filter_limit_semantics_w :
    jsSliceFrom ["n1", "n2", "n3"] (-((2 : Nat) : Int)) = ["n2", "n3"] := by
  have h := retrieval_filter_limit_semantics.2.2 ["n1", "n2", "n3"] 2 (by decide)
  rw [h]
  rfl

/-- Congruence: the retrieval result depends on the supplied limit only
through its normalized value. -/
theorem handleGetArtifactImpl_limit_congr (fsys : RunsFS) (runId kind : String)
    (name grep : Option String) (l1 l2 : Option JSNum)
    (h : normLimit l1 = normLimit l2) :
    handleGetArtifactImpl fsys runId kind name grep l1 =
      handleGetArtifactImpl fsys runId kind name grep l2 := by
  unfold handleGetArtifactImpl
  rw [h]

/-- C10: a supplied limit of `0`, `NaN` or an infinity is treated as if
no limit were given, both in `handleGetArtifact` and in the HTTP log
endpoint guard: all entries surviving the filter are returned. -/
theorem limit_zero_nonfinite_ignored (fsys : RunsFS) (runId kind : String)
    (name grep : Option String) (limit : Option JSNum)
    (h : limit = some (JSNum.num 0) ∨ limit = some JSNum.nan ∨ limit = some JSNum.inf) :
    handleGetArtifactImpl fsys runId kind name grep limit =
      handleGetArtifactImpl fsys runId kind name grep none
    ∧ ∀ (l : List String), serverApplyLimit limit l = l := by
  have hn : normLimit limit = normLimit none := by
    rcases h with h | h | h <;> subst h <;> rfl
  constructor
  · exact handleGetArtifactImpl_limit_congr fsys runId kind name grep limit none hn
  · intro l
    rcases h with h | h | h <;> subst h <;> simp [serverApplyLimit]

/-- C10 witness: concrete retrieval with `limit=0` and the server guard
with `NaN`. -/
theorem limit_zero_nonfinite_ignored_w :
    (handleGetArtifactImpl [("ra", rdActionsEx)] "ra" "actions" none none (some (JSNum.num 0)) =
      handleGetArtifactImpl [("ra", rdActionsEx)] "ra" "actions" none none none)
    ∧ serverApplyLimit (some (JSNum.num 0)) ["x-only"] = ["x-only"] := by
  have h := limit_zero_nonfinite_ignored [("ra", rdActionsEx)] "ra" "actions" none none
    (some (JSNum.num 0)) (Or.inl rfl)
  exact ⟨h.1, h.2 ["x-only"]⟩

/-! ## Claim about the artifact index builder -/

/-- C9: the artifact index is a pure function of the directory contents:
any two listings of the same files (in particular, the same listing
twice, independent of prior calls — there is no cache) produce the same
index, field by field. -/
theorem buildArtifactIndex_deterministic (d : String) (f1 f2 : List String)
    (h : f1.Perm f2) :
    buildArtifactIndex d f1 = buildArtifactIndex d f2 := by
  have hscreens : List.insertionSort strLe (f1.filter (fun f => jsEndsWith f ".png")) =
      List.insertionSort strLe (f2.filter (fun f => jsEndsWith f ".png")) := by
    apply List.eq_of_perm_of_sorted (r := strLe)
    · exact (List.perm_insertionSort _ _).trans ((h.filter _).trans (List.perm_insertionSort _ _).symm)
    · exact List.sorted_insertionSort strLe _
    · exact List.sorted_insertionSort strLe _
  have hmem : ∀ x : String, f1.contains x = f2.contains x := by
    intro x
    by_cases hx : x ∈ f1
    · have hx2 : x ∈ f2 := h.mem_iff.mp hx
      simp [List.elem_eq_mem, hx, hx2]
    · have hx2 : x ∉ f2 := fun hc => hx (h.mem_iff.mpr hc)
      simp [List.elem_eq_mem, hx, hx2]
  unfold buildArtifactIndex
  simp only [hscreens, hmem]

/-- C9 witness: the same directory contents listed in two orders give
the same index. -/
theorem buildArtifactIndex_deterministic_w :
    buildArtifactIndex "runs/rw9" ["b.png", "console.log", "a.png"] =
      buildArtifactIndex "runs/rw9" ["console.log", "a.png", "b.png"] :=
  buildArtifactIndex_deterministic "runs/rw9" _ _ (by decide)

/-! ## Claims about the step recorder -/

/-- C1 counterexample: for a step whose body throws immediately from the
initial state, the first recorded event is `step:start` — the
`before_<name>` screenshot comes after it, not before — and the failure
bracket additionally records the `after_<name>` screenshot taken by the
`finally` block. -/
theorem stepRun_claimed_order_cex :
    ((stepRun "s" (fun st => (st, some "boom")) initStepState).1.actions.head? =
      some (ActionEv.stepStart "s" 0))
    ∧ ((stepRun "s" (fun st => (st, some "boom")) initStepState).1.actions =
        [ActionEv.stepStart "s" 0, ActionEv.screenshot "before_s" 1,
         ActionEv.stepError "s" "boom" 2, ActionEv.screenshot "on_error_s" 3,
         ActionEv.screenshot "after_s" 4]) := by
  constructor <;> rfl

/-- C1 (amended): for every `step(name, body)` invocation the events
occur in this order: the `step:start` action event, then the
`before_<name>` screenshot capture, then the body; on success
`step:end` followed by the `after_<name>` screenshot; on failure
`step:error` followed by the `on_error_<name>` screenshot followed by
the `after_<name>` screenshot captured by the `finally` block. -/
theorem stepRun_event_order (name : String)
    (body : StepState → StepState × Option String)
    (s0 s3 : StepState) (tail : List ActionEv) (out : Option String)
    (hbody : body (stepPre name s0) = (s3, out))
    (htail : s3.actions = (stepPre name s0).actions ++ tail) :
    (stepRun name body s0).1.actions =
      s0.actions ++ [ActionEv.stepStart name s0.clock,
        ActionEv.screenshot ("before_" ++ name) (s0.clock + 1)] ++ tail ++
        stepSuffix name s3.clock out
    ∧ (stepRun name body s0).2 = out :=
  stepRun_actions_spec name body s0 s3 tail out hbody htail

/-- C1 witness: a concrete successful step whose body takes one bare
screenshot. -/
theorem stepRun_event_order_w :
    (stepRun "nav" (fun st => (doScreenshot "mid" st, none)) initStepState).1.actions =
      [ActionEv.stepStart "nav" 0, ActionEv.screenshot "before_nav" 1,
       ActionEv.screenshot "mid" 2, ActionEv.stepEnd "nav" 3,
       ActionEv.screenshot "after_nav" 4] := by
  have h := (stepRun_event_order "nav" (fun st => (doScreenshot "mid" st, none))
    initStepState (doScreenshot "mid" (stepPre "nav" initStepState))
    [ActionEv.screenshot "mid" 2] none rfl (by decide)).1
  rw [h]
  rfl

/-- Test of one action event being a `step:end` or `step:error` for the
given step name. -/
def isEndOrErrFor (n : String) : ActionEv → Bool
  | ActionEv.stepEnd m _ => m == n
  | ActionEv.stepError m _ _ => m == n
  | _ => false

/-- Number of `step:end`/`step:error` events for a step name. -/
def countEndErr (n : String) (l : List ActionEv) : Nat :=
  (l.filter (isEndOrErrFor n)).length

/-- C4: per invocation — with no `step:end`/`step:error` events for the
same name already recorded or emitted by the body — the resulting
sequence records `step:start` at the head of the freshly appended
events, before everything this invocation adds, and exactly one of
`step:end`/`step:error`, never both. -/
theorem stepRun_start_end_exclusive (name : String)
    (body : StepState → StepState × Option String)
    (s0 s3 : StepState) (tail : List ActionEv) (out : Option String)
    (hbody : body (stepPre name s0) = (s3, out))
    (htail : s3.actions = (stepPre name s0).actions ++ tail)
    (h0 : countEndErr name s0.actions = 0)
    (ht : countEndErr name tail = 0) :
    countEndErr name (stepRun name body s0).1.actions = 1
    ∧ ∃ B, (stepRun name body s0).1.actions =
        s0.actions ++ ActionEv.stepStart name s0.clock :: B := by
  obtain ⟨ha, -⟩ := stepRun_actions_spec name body s0 s3 tail out hbody htail
  constructor
  · unfold countEndErr at h0 ht ⊢
    rw [ha]
    cases out <;>
      simp [stepSuffix, List.filter_append, isEndOrErrFor, h0, ht]
  · refine ⟨ActionEv.screenshot ("before_" ++ name) (s0.clock + 1) ::
      (tail ++ stepSuffix name s3.clock out), ?_⟩
    rw [ha]
    simp

/-- C4 witness: a concrete failing step with an empty body. -/
theorem stepRun_start_end_exclusive_w :
    countEndErr "cl" (stepRun "cl" (fun st => (st, some "x")) initStepState).1.actions = 1
    ∧ ∃ B, (stepRun "cl" (fun st => (st, some "x")) initStepState).1.actions =
        initStepState.actions ++ ActionEv.stepStart "cl" initStepState.clock :: B :=
  stepRun_start_end_exclusive "cl" (fun st => (st, some "x")) initStepState
    (stepPre "cl" initStepState) [] (some "x") rfl (by decide) (by decide) (by decide)

/-! ## Claims about finalization and run status -/

/-- A finalization environment where only stopping the trace fails. -/
def feTraceBoom : FinalEnv :=
  { tracingStopErr := some "tracing stop failed", pageCloseErr := none,
    contextCloseErr := none, browserCloseErr := none, writeActionsErr := none }

/-- A finalization environment where every close and the actions write
fail but stopping the trace succeeds. -/
def feClosesBoom : FinalEnv :=
  { tracingStopErr := none, pageCloseErr := some "page close failed",
    contextCloseErr := some "context close failed",
    browserCloseErr := some "browser close failed",
    writeActionsErr := some "disk full" }

/-- C3 counterexample: when stopping the trace fails, none of the close
calls is attempted, the action log is not persisted, and the error
propagates out of the finalizer. -/
theorem finalize_trace_stop_cex :
    (finalize feTraceBoom true true true).pageCloseAttempted = false
    ∧ (finalize feTraceBoom true true true).contextCloseAttempted = false
    ∧ (finalize feTraceBoom true true true).browserCloseAttempted = false
    ∧ (finalize feTraceBoom true true true).actionsPersisted = false
    ∧ (finalize feTraceBoom true true true).thrown = some "tracing stop failed" := by
  refine ⟨rfl, rfl, rfl, rfl, rfl⟩

/-- C3 (amended): finalization always executes regardless of which
prior phase failed, and — provided stopping the trace does not fail (or
no context exists) — it is individually fault-tolerant: failures
closing the page, the context or the browser are swallowed, every close
of an existing resource is still attempted, and the action-event
sequence write is still attempted, persisting unless the write itself
fails; a failure stopping the trace, however, aborts the rest of
finalization and propagates. -/
theorem finalize_fault_tolerance (fe : FinalEnv) (hc hp hb : Bool)
    (h : fe.tracingStopErr = none ∨ hc = false) :
    finalize fe hc hp hb =
      { traceStopAttempted := hc, pageCloseAttempted := hp, contextCloseAttempted := hc,
        browserCloseAttempted := hb, actionsWriteAttempted := true,
        actionsPersisted := fe.writeActionsErr.isNone, thrown := none }
    ∧ ∀ (env : EngineEnv) (sc : Script), env.scriptExists = true →
        (runTest env sc).finalized =
          some (finalize env.fin (engineTry env sc).hasContext (engineTry env sc).hasPage
            (engineTry env sc).hasBrowser) := by
  constructor
  · unfold finalize
    rcases h with h | h <;> simp [h]
  · intro env sc hex
    unfold runTest
    simp [hex]

/-- C3 witness: with all three close calls failing and the actions write
failing, finalization still attempts every close and the write. -/
theorem finalize_fault_tolerance_w :
    finalize feClosesBoom true true true =
      { traceStopAttempted := true, pageCloseAttempted := true, contextCloseAttempted := true,
        browserCloseAttempted := true, actionsWriteAttempted := true,
        actionsPersisted := false, thrown := none } := by
  have h := (finalize_fault_tolerance feClosesBoom true true true (Or.inl rfl)).1
  rw [h]
  rfl

/-- C2: for every run that `runTest` returns (script path existing), the
status is `FAIL` exactly when at least one step body raised or the
engine caught an exception during browser startup, instrumentation,
tracing start, script load, or script execution; otherwise `PASS`. -/
theorem runTest_fail_iff (env : EngineEnv) (sc : Script) (r : RunResultM)
    (hex : env.scriptExists = true)
    (hret : (runTest env sc).ret = Except.ok r) :
    r.status = Status.FAIL ↔
      (stepRaised sc initStepState = true ∨ engineCaughtB env sc = true) := by
  unfold runTest at hret
  rw [hex] at hret
  simp only [Bool.true_eq_false, if_false] at hret
  cases hthr : (finalize env.fin (engineTry env sc).hasContext (engineTry env sc).hasPage
      (engineTry env sc).hasBrowser).thrown with
  | some e =>
    rw [hthr] at hret
    simp at hret
  | none =>
    rw [hthr] at hret
    simp only [Except.ok.injEq] at hret
    rw [← hret]
    exact engineTry_status_fail_iff env sc

/-- A run environment in which every phase succeeds. -/
def envAllOk : EngineEnv :=
  { scriptPath := "tests/example.spec.ts", runId := "2025-08-01-10-00-00",
    scriptExists := true, launchErr := none, contextErr := none, pageErr := none,
    instrErr := none, tracingStartErr := none, importErr := none, shapeOk := true,
    gotoErr := none, pageEvents := [],
    fin := { tracingStopErr := none, pageCloseErr := none, contextCloseErr := none,
             browserCloseErr := none, writeActionsErr := none } }

/-- The result a fully successful empty run returns. -/
def passRes : RunResultM :=
  { status := Status.PASS, artifactsDir := "runs/2025-08-01-10-00-00",
    runId := "2025-08-01-10-00-00", criticalErrors := [] }

/-- C2 witness: the trivially passing run, with both sides of the
equivalence false. -/
theorem runTest_fail_iff_w :
    passRes.status = Status.FAIL ↔
      (stepRaised Script.done initStepState = true ∨ engineCaughtB envAllOk Script.done = true) :=
  runTest_fail_iff envAllOk Script.done passRes rfl rfl

/-! ## Claim about the page-error observer -/

/-- C8, evaluated at the failing input: an uncaught in-page error event
leaves the instrumentation state — in particular `criticalErrors` —
unchanged, because `runTest` registers no `pageerror` listener, while a
console message of level `error` does append its text to
`criticalErrors`. -/
theorem pageerror_listener_absent :
    (handlePageEvent instrInit
      (PageEvent.pageError "2025-08-01T10:00:00.000Z" "Uncaught TypeError: boom")).criticalErrors
      = []
    ∧ (handlePageEvent instrInit
        (PageEvent.console "2025-08-01T10:00:00.000Z" "error" "boom")).criticalErrors
      = ["boom"] := by
  constructor <;> rfl
